import Mathlib

/-!
Verification of the "almoxarifado" (consumable-stock ledger) core of the
inventario repository: a shallow embedding of the stock-item registry, the
movement log, and the four route handlers that mutate them
(`almoxarifado_add_item`, `almoxarifado_movimento`,
`almoxarifado_item_update`, `almoxarifado_item_delete` in
`src/app/routes.py`), together with the schema constraints declared in
`src/app/models.py` (`AlmoxItem`, `AlmoxMovement`).

Modelling conventions:
* Database rows become structures; the two tables become lists held in a
  `State` record, ordered by insertion (SQLite rowid order), together with
  the autoincrement counters for fresh primary keys.
* Form values arrive at the handlers already parsed: quantities are `Int`
  (the routes reject non-integer text before any state is touched, so that
  path collapses to the same `ValidationError` outcome), names and reasons
  are `String` (the handlers themselves perform the `.strip()` calls).
* A handler is a pure function `State → ... → Except AlmoxError State`.
  `.ok s'` is the state after `db.session.commit()`; `.error e` covers every
  path that returns before committing or rolls back (`db.session.rollback()`
  or Flask-SQLAlchemy's teardown rollback of uncommitted session changes),
  so on error nothing is persisted.
* SQLite compares `VARCHAR` columns with the BINARY collation, so the
  `unique=True` constraint on `almox_items.name` is case-SENSITIVE; a
  violation surfaces as `IntegrityError`, which the handlers turn into the
  "Já existe um item com esse nome" message (the spec's `ConflictError`).
-/

namespace Inventario

/-- One row of `almox_movements` (`AlmoxMovement` in `src/app/models.py`):
`type` is the stored string ("ENTRADA" / "SAIDA" / "PERDA" / "DANIFICADO"),
`qty` the (positive) moved quantity, `local_` and `motivo` the optional
free-text columns, `item_id` the owning item's key. -/
structure AlmoxMovement where
  id : Nat
  type : String
  qty : Int
  local_ : Option String
  motivo : Option String
  item_id : Nat
  deriving Repr, DecidableEq

/-- One row of `almox_items` (`AlmoxItem` in `src/app/models.py`). -/
structure AlmoxItem where
  id : Nat
  name : String
  qty : Int
  deriving Repr, DecidableEq

/-- The persisted ledger state: the two tables in insertion order plus the
autoincrement counters used for fresh primary keys. -/
structure State where
  items : List AlmoxItem
  movements : List AlmoxMovement
  nextItemId : Nat
  nextMovId : Nat
  deriving Repr, DecidableEq

/-- The empty database produced by `db.create_all()`. -/
def initState : State := ⟨[], [], 0, 0⟩

/-- The error taxonomy of §7 of the spec, as surfaced by the handlers'
flash-message paths.  `validation` carries the quantity the message reports
when it reports one (the `item_update` handler's "Não é possível subtrair
mais que o estoque atual (current)" message); `insufficientStock` carries
the available quantity from "Estoque insuficiente. Disponível: current". -/
inductive AlmoxError where
  | validation (reported : Option Int)
  | conflict
  | insufficientStock (available : Int)
  | notFound
  deriving Repr, DecidableEq

/-- Python's `str.lower()` (per character, as used on the ASCII item names
the routes compare). -/
def lowerStr (s : String) : String := ⟨s.data.map Char.toLower⟩

/-- Python's `str.upper()` (per character). -/
def upperStr (s : String) : String := ⟨s.data.map Char.toUpper⟩

/-- Python's `str.strip()`: drop leading and trailing whitespace. -/
def stripStr (s : String) : String :=
  ⟨((s.data.dropWhile Char.isWhitespace).reverse.dropWhile Char.isWhitespace).reverse⟩

/-- `VALID_ALMOX_TYPES` from `src/app/routes.py` line 258. -/
def VALID_ALMOX_TYPES : List String := ["ENTRADA", "SAIDA", "PERDA", "DANIFICADO"]

/-- The debit-class movement types (the `{"SAIDA", "PERDA", "DANIFICADO"}`
set tested at routes.py line 389). -/
def DEBIT_TYPES : List String := ["SAIDA", "PERDA", "DANIFICADO"]

/-- The wire-level type normalization performed at the top of
`almoxarifado_movimento` (routes.py lines 359-367):
`(request.form.get("type") or "SAIDA").strip().upper()` followed by the
legacy-alias rewrites `USO → SAIDA` and `DANO → DANIFICADO`. -/
def normalizeType (raw : String) : String :=
  let t := upperStr (stripStr (if raw = "" then "SAIDA" else raw))
  if t = "USO" then "SAIDA"
  else if t = "DANO" then "DANIFICADO"
  else t

/-- Case-insensitive name lookup: the
`AlmoxItem.query.filter(func.lower(AlmoxItem.name) == name.lower()).first()`
query of `almoxarifado_add_item` (routes.py line 306). -/
def findByNameCI (s : State) (name : String) : Option AlmoxItem :=
  s.items.find? (fun it => lowerStr it.name = lowerStr name)

/-- Primary-key lookup: `AlmoxItem.query.get(item_id)`. -/
def findById (s : State) (itemId : Nat) : Option AlmoxItem :=
  s.items.find? (fun it => it.id = itemId)

/-- Whether committing an item named `name` with key `itemId` would violate
the case-sensitive `unique=True` constraint on `almox_items.name`
(`IntegrityError` at commit time). -/
def nameConflict (s : State) (itemId : Nat) (name : String) : Bool :=
  s.items.any (fun it => it.id ≠ itemId && it.name = name)

/-- `almoxarifado_add_item` (routes.py lines 286-352), the spec's
`registerOrDeposit(name, qty)`: strips the name, rejects empty names and
non-positive quantities; if a case-insensitive match exists, adds `qty` to
it and appends an ENTRADA movement with motivo "Entrada de estoque" (the
spec's "stock entry"); otherwise inserts a new item and appends an ENTRADA
movement with motivo "Cadastro inicial" (the spec's "initial
registration").  A duplicate exact name at insert time would raise
`IntegrityError` (→ conflict), though the case-insensitive pre-check makes
that branch unreachable sequentially. -/
def registerOrDeposit (s : State) (name : String) (qty : Int) : Except AlmoxError State :=
  let name := stripStr name
  if name = "" then .error (.validation none)
  else if qty ≤ 0 then .error (.validation none)
  else
    match findByNameCI s name with
    | some existing =>
        let items := s.items.map fun it =>
          if it.id = existing.id then { it with qty := it.qty + qty } else it
        let mv : AlmoxMovement :=
          ⟨s.nextMovId, "ENTRADA", qty, none, some "Entrada de estoque", existing.id⟩
        .ok { s with items := items, movements := s.movements ++ [mv],
                     nextMovId := s.nextMovId + 1 }
    | none =>
        if nameConflict s s.nextItemId name then .error .conflict
        else
          let item : AlmoxItem := ⟨s.nextItemId, name, qty⟩
          let mv : AlmoxMovement :=
            ⟨s.nextMovId, "ENTRADA", qty, none, some "Cadastro inicial", s.nextItemId⟩
          .ok { s with items := s.items ++ [item], movements := s.movements ++ [mv],
                       nextItemId := s.nextItemId + 1, nextMovId := s.nextMovId + 1 }

/-- `almoxarifado_movimento` (routes.py lines 355-428), the spec's
`applyMovement(itemId, type, qty, location?, reason?)`: normalizes the type,
validates it against `VALID_ALMOX_TYPES`, requires `qty > 0`, requires a
non-empty motivo for debit types, looks the item up, and for debit types
requires `qty ≤ current` (else `InsufficientStockError` carrying the
available amount).  On success it updates the quantity and appends exactly
one movement in the same commit. -/
def applyMovement (s : State) (itemId : Nat) (rawType : String) (qty : Int)
    (local_ : String) (motivo : String) : Except AlmoxError State :=
  let type_ := normalizeType rawType
  let loc := if stripStr local_ = "" then none else some (stripStr local_)
  let motivo := stripStr motivo
  if type_ ∉ VALID_ALMOX_TYPES then .error (.validation none)
  else if qty ≤ 0 then .error (.validation none)
  else if type_ ∈ DEBIT_TYPES ∧ motivo = "" then .error (.validation none)
  else
    match findById s itemId with
    | none => .error .notFound
    | some item =>
        let current := item.qty
        if type_ = "ENTRADA" ∨ qty ≤ current then
          let newQty := if type_ = "ENTRADA" then current + qty else current - qty
          let items := s.items.map fun it =>
            if it.id = item.id then { it with qty := newQty } else it
          let mv : AlmoxMovement :=
            ⟨s.nextMovId, type_, qty, loc,
             (if motivo ≠ "" then some motivo
              else if type_ = "ENTRADA" then some "Entrada de estoque" else none),
             item.id⟩
          .ok { s with items := items, movements := s.movements ++ [mv],
                       nextMovId := s.nextMovId + 1 }
        else .error (.insufficientStock current)

/-- `almoxarifado_item_update` (routes.py lines 431-511), the spec's
`adjustItem(itemId, newName, addQty, subQty, reason?)`: looks the item up,
rejects an empty name and negative quantities, computes
`new_qty = current + addQty - subQty`, rejects a negative result with a
message reporting `current` (the session's pending rename is rolled back at
teardown, so nothing persists), then commits the rename, the new quantity,
an ENTRADA movement of `addQty` when `addQty > 0` (motivo or "Ajuste
(entrada)") and a PERDA movement of `subQty` when `subQty > 0` (motivo or
"Ajuste (baixa)"); an exact-name collision at commit raises `IntegrityError`
(→ conflict), rolling everything back. -/
def adjustItem (s : State) (itemId : Nat) (name : String) (addQty subQty : Int)
    (motivo : String) : Except AlmoxError State :=
  let name := stripStr name
  let motivoOpt := if stripStr motivo = "" then none else some (stripStr motivo)
  match findById s itemId with
  | none => .error .notFound
  | some item =>
      if name = "" then .error (.validation none)
      else if addQty < 0 ∨ subQty < 0 then .error (.validation none)
      else
        let current := item.qty
        let newQty := current + addQty - subQty
        if newQty < 0 then .error (.validation (some current))
        else if nameConflict s item.id name then .error .conflict
        else
          let items := s.items.map fun it =>
            if it.id = item.id then { it with name := name, qty := newQty } else it
          let entryMvs : List AlmoxMovement :=
            if addQty > 0 then
              [⟨s.nextMovId, "ENTRADA", addQty, none,
                some (motivoOpt.getD "Ajuste (entrada)"), item.id⟩]
            else []
          let lossMvs : List AlmoxMovement :=
            if subQty > 0 then
              [⟨s.nextMovId + entryMvs.length, "PERDA", subQty, none,
                some (motivoOpt.getD "Ajuste (baixa)"), item.id⟩]
            else []
          .ok { s with items := items,
                       movements := s.movements ++ entryMvs ++ lossMvs,
                       nextMovId := s.nextMovId + entryMvs.length + lossMvs.length }

/-- `almoxarifado_item_delete` (routes.py lines 514-538), the spec's
`deleteItem(itemId)`: `NotFoundError` when no such item exists; otherwise
deletes the item, and the `cascade="all, delete-orphan"` relationship on
`AlmoxItem.movements` (models.py lines 113-118) deletes all of its
movements in the same commit. -/
def deleteItem (s : State) (itemId : Nat) : Except AlmoxError State :=
  match findById s itemId with
  | none => .error .notFound
  | some _ =>
      .ok { s with items := s.items.filter (fun it => it.id ≠ itemId),
                   movements := s.movements.filter (fun m => m.item_id ≠ itemId) }

/-- The three ledger operations of the replay invariant (C1). -/
inductive Op where
  | registerOrDeposit (name : String) (qty : Int)
  | applyMovement (itemId : Nat) (rawType : String) (qty : Int)
      (local_ : String) (motivo : String)
  | adjustItem (itemId : Nat) (name : String) (addQty subQty : Int) (motivo : String)
  deriving Repr

/-- Dispatch one operation. -/
def dispatch (s : State) : Op → Except AlmoxError State
  | .registerOrDeposit name qty => registerOrDeposit s name qty
  | .applyMovement itemId rawType qty local_ motivo =>
      applyMovement s itemId rawType qty local_ motivo
  | .adjustItem itemId name addQty subQty motivo =>
      adjustItem s itemId name addQty subQty motivo

/-- Request-boundary semantics of one handler outcome: a failure rolls the
transaction back, so the persisted state is the pre-request one; a success
persists the committed state.  The second component is the error surfaced
to the user, `none` on success. -/
def commitOrRollback (s : State) (r : Except AlmoxError State) : State × Option AlmoxError :=
  match r with
  | .ok s' => (s', none)
  | .error e => (s, some e)

/-- One request against the persisted state. -/
def step (s : State) (op : Op) : State × Option AlmoxError :=
  commitOrRollback s (dispatch s op)

/-- Whether a handler outcome committed (no error was flashed). -/
def succeeds (r : Except AlmoxError State) : Bool :=
  match r with
  | .ok _ => true
  | .error _ => false

/-- Replay a sequence of requests, keeping the persisted state across
failures. -/
def replay (s : State) (ops : List Op) : State :=
  ops.foldl (fun s op => (step s op).1) s

/-- The signed contribution of one movement to an item's quantity:
ENTRADA adds its qty, every other stored type subtracts it, movements of
other items contribute nothing (spec §3's quantity invariant). -/
def delta (itemId : Nat) (m : AlmoxMovement) : Int :=
  if m.item_id = itemId then (if m.type = "ENTRADA" then m.qty else -m.qty) else 0

/-- The signed sum of an item's movement log. -/
def signedSum (itemId : Nat) (movs : List AlmoxMovement) : Int :=
  (movs.map (delta itemId)).sum

/-- The state well-formedness the replay invariant is proved under:
every item's quantity equals the signed sum of its movements, and all
primary keys already issued are below the autoincrement counter (so a
freshly inserted item never inherits stale movements). -/
def Inv (s : State) : Prop :=
  (∀ it ∈ s.items, it.qty = signedSum it.id s.movements) ∧
  (∀ it ∈ s.items, it.id < s.nextItemId) ∧
  (∀ m ∈ s.movements, m.item_id < s.nextItemId)

/-! ### Helper lemmas -/

lemma signedSum_append (i : Nat) (ms₁ ms₂ : List AlmoxMovement) :
    signedSum i (ms₁ ++ ms₂) = signedSum i ms₁ + signedSum i ms₂ := by
  simp [signedSum]

lemma signedSum_nil (i : Nat) : signedSum i [] = 0 := rfl

lemma signedSum_singleton (i : Nat) (m : AlmoxMovement) :
    signedSum i [m] = delta i m := by
  simp [signedSum]

lemma signedSum_eq_zero {i : Nat} {ms : List AlmoxMovement}
    (h : ∀ m ∈ ms, m.item_id ≠ i) : signedSum i ms = 0 := by
  unfold signedSum
  refine List.sum_eq_zero ?_
  intro x hx
  obtain ⟨m, hm, rfl⟩ := List.mem_map.mp hx
  simp [delta, h m hm]

lemma mem_of_findById {s : State} {i : Nat} {item : AlmoxItem}
    (h : findById s i = some item) : item ∈ s.items ∧ item.id = i := by
  unfold findById at h
  refine ⟨List.mem_of_find?_eq_some h, ?_⟩
  have h2 := List.find?_some h
  simpa using h2

lemma mem_of_findByNameCI {s : State} {n : String} {item : AlmoxItem}
    (h : findByNameCI s n = some item) :
    item ∈ s.items ∧ lowerStr item.name = lowerStr n := by
  unfold findByNameCI at h
  refine ⟨List.mem_of_find?_eq_some h, ?_⟩
  have h2 := List.find?_some h
  simpa using h2

lemma nameConflict_eq_false_of_findByNameCI_none {s : State} {n : String} {i : Nat}
    (h : findByNameCI s n = none) : nameConflict s i n = false := by
  unfold nameConflict
  rw [List.any_eq_false]
  intro it hit
  have hne : ¬ lowerStr it.name = lowerStr n := by
    have h' := List.find?_eq_none.mp h it hit
    simpa using h'
  have hnn : it.name ≠ n := fun he => hne (by rw [he])
  simp [hnn]

lemma debit_mem_valid {t : String} (h : t ∈ DEBIT_TYPES) : t ∈ VALID_ALMOX_TYPES := by
  simp only [DEBIT_TYPES, List.mem_cons, List.not_mem_nil, or_false] at h
  simp only [VALID_ALMOX_TYPES, List.mem_cons, List.not_mem_nil, or_false]
  tauto

lemma debit_ne_entrada {t : String} (h : t ∈ DEBIT_TYPES) : t ≠ "ENTRADA" := by
  simp only [DEBIT_TYPES, List.mem_cons, List.not_mem_nil, or_false] at h
  rcases h with h | h | h <;> subst h <;> decide

lemma Inv_registerOrDeposit_ok {s s' : State} {name : String} {qty : Int}
    (hs : Inv s) (h : registerOrDeposit s name qty = .ok s') : Inv s' := by
  obtain ⟨hqs, his, hms⟩ := hs
  simp only [registerOrDeposit] at h
  split at h
  · simp at h
  split at h
  · simp at h
  split at h
  case _ ex hex =>
    simp only [Except.ok.injEq] at h
    subst h
    obtain ⟨hexmem, -⟩ := mem_of_findByNameCI hex
    refine ⟨?_, ?_, ?_⟩
    · intro it' hit'
      simp only [List.mem_map] at hit'
      obtain ⟨it, hit, rfl⟩ := hit'
      rw [signedSum_append, signedSum_singleton]
      have hq := hqs it hit
      by_cases hid : it.id = ex.id
      · simp only [if_pos hid]
        simp [delta, hid, ← hq]
        rw [← hid]
        exact hq
      · simp only [if_neg hid]
        have : ex.id ≠ it.id := fun he => hid he.symm
        simp [delta, this, ← hq]
    · intro it' hit'
      simp only [List.mem_map] at hit'
      obtain ⟨it, hit, rfl⟩ := hit'
      have hpres : (if it.id = ex.id then { it with qty := it.qty + qty } else it).id
          = it.id := by
        by_cases hid : it.id = ex.id <;> simp [hid]
      rw [hpres]
      exact his it hit
    · intro m hm
      simp only [List.mem_append, List.mem_singleton] at hm
      rcases hm with hm | hm
      · exact hms m hm
      · subst hm
        exact his ex hexmem
  case _ hex =>
    split at h
    · simp at h
    simp only [Except.ok.injEq] at h
    subst h
    refine ⟨?_, ?_, ?_⟩
    · intro it' hit'
      simp only [List.mem_append, List.mem_singleton] at hit'
      rw [signedSum_append, signedSum_singleton]
      rcases hit' with hit | hit
      · have hq := hqs it' hit
        have : s.nextItemId ≠ it'.id := fun he => Nat.lt_irrefl _ (he ▸ his it' hit)
        simp [delta, this, ← hq]
      · subst hit
        rw [signedSum_eq_zero (fun m hm => Nat.ne_of_lt (hms m hm))]
        simp [delta]
    · intro it' hit'
      simp only [List.mem_append, List.mem_singleton] at hit'
      rcases hit' with hit | hit
      · exact Nat.lt_succ_of_lt (his it' hit)
      · subst hit
        exact Nat.lt_succ_self _
    · intro m hm
      simp only [List.mem_append, List.mem_singleton] at hm
      rcases hm with hm | hm
      · exact Nat.lt_succ_of_lt (hms m hm)
      · subst hm
        exact Nat.lt_succ_self _

lemma Inv_applyMovement_ok {s s' : State} {itemId : Nat} {rawType : String}
    {qty : Int} {local_ motivo : String}
    (hs : Inv s) (h : applyMovement s itemId rawType qty local_ motivo = .ok s') :
    Inv s' := by
  obtain ⟨hqs, his, hms⟩ := hs
  simp only [applyMovement] at h
  split at h
  · simp at h
  split at h
  · simp at h
  split at h
  · simp at h
  split at h
  · simp at h
  case _ item heq =>
    split at h
    case _ =>
      simp only [Except.ok.injEq] at h
      subst h
      obtain ⟨hitemmem, -⟩ := mem_of_findById heq
      have hitemq := hqs item hitemmem
      refine ⟨?_, ?_, ?_⟩
      · intro it' hit'
        simp only [List.mem_map] at hit'
        obtain ⟨it, hit, rfl⟩ := hit'
        rw [signedSum_append, signedSum_singleton]
        have hq := hqs it hit
        by_cases hid : it.id = item.id
        · simp only [if_pos hid]
          by_cases ht : normalizeType rawType = "ENTRADA"
          · simp [delta, hid, ht, hitemq]
          · simp [delta, hid, ht, hitemq]
            omega
        · simp only [if_neg hid]
          have : item.id ≠ it.id := fun he => hid he.symm
          simp [delta, this, ← hq]
      · intro it' hit'
        simp only [List.mem_map] at hit'
        obtain ⟨it, hit, rfl⟩ := hit'
        have hpres : (if it.id = item.id then
              { it with qty := if normalizeType rawType = "ENTRADA"
                               then item.qty + qty else item.qty - qty }
            else it).id = it.id := by
          by_cases hid : it.id = item.id <;> simp [hid]
        rw [hpres]
        exact his it hit
      · intro m hm
        simp only [List.mem_append, List.mem_singleton] at hm
        rcases hm with hm | hm
        · exact hms m hm
        · subst hm
          exact his item hitemmem
    case _ =>
      simp at h

lemma Inv_adjustItem_ok {s s' : State} {itemId : Nat} {name : String}
    {addQty subQty : Int} {motivo : String}
    (hs : Inv s) (h : adjustItem s itemId name addQty subQty motivo = .ok s') :
    Inv s' := by
  obtain ⟨hqs, his, hms⟩ := hs
  simp only [adjustItem] at h
  split at h
  · simp at h
  case _ item heq =>
    split at h
    · simp at h
    split at h
    case _ hneg =>
      simp at h
    case _ hneg =>
      split at h
      · simp at h
      split at h
      · simp at h
      simp only [Except.ok.injEq] at h
      subst h
      obtain ⟨hitemmem, -⟩ := mem_of_findById heq
      have hitemq := hqs item hitemmem
      have hanneg : ¬ (addQty < 0 ∨ subQty < 0) := by assumption
      refine ⟨?_, ?_, ?_⟩
      · intro it' hit'
        simp only [List.mem_map] at hit'
        obtain ⟨it, hit, rfl⟩ := hit'
        rw [signedSum_append, signedSum_append]
        have hq := hqs it hit
        by_cases hid : it.id = item.id
        · simp only [if_pos hid]
          by_cases ha : addQty > 0 <;> by_cases hb : subQty > 0 <;>
            simp [ha, hb, signedSum_singleton, signedSum_nil, delta, hid, hitemq] <;>
            omega
        · simp only [if_neg hid]
          have hne : item.id ≠ it.id := fun he => hid he.symm
          by_cases ha : addQty > 0 <;> by_cases hb : subQty > 0 <;>
            simp [ha, hb, signedSum_singleton, signedSum_nil, delta, hne, ← hq]
      · intro it' hit'
        simp only [List.mem_map] at hit'
        obtain ⟨it, hit, rfl⟩ := hit'
        have hpres : (if it.id = item.id then
              { it with name := stripStr name, qty := item.qty + addQty - subQty }
            else it).id = it.id := by
          by_cases hid : it.id = item.id <;> simp [hid]
        rw [hpres]
        exact his it hit
      · intro m hm
        simp only [List.mem_append] at hm
        have hlt : item.id < s.nextItemId := his item hitemmem
        rcases hm with (hm | hm) | hm
        · exact hms m hm
        · by_cases ha : addQty > 0 <;> simp [ha] at hm
          subst hm
          exact hlt
        · by_cases hb : subQty > 0 <;> simp [hb] at hm
          subst hm
          exact hlt

lemma Inv_step {s : State} (op : Op) (hs : Inv s) : Inv (step s op).1 := by
  unfold step commitOrRollback
  cases hd : dispatch s op with
  | ok s'' =>
      cases op with
      | registerOrDeposit n q => exact Inv_registerOrDeposit_ok hs hd
      | applyMovement a b c d e => exact Inv_applyMovement_ok hs hd
      | adjustItem a b c d e => exact Inv_adjustItem_ok hs hd
  | error e => exact hs

lemma Inv_replay {s : State} (hs : Inv s) (ops : List Op) : Inv (replay s ops) := by
  induction ops generalizing s with
  | nil => exact hs
  | cons op ops ih => exact ih (Inv_step op hs)

/-! ### Claims -/

/-- C2: for every existing item and every debit-class movement
(SAIDA/PERDA/DANIFICADO, well-formed: positive qty, non-empty motivo) whose
qty strictly exceeds the item's current quantity, `applyMovement` fails with
`InsufficientStockError` carrying the pre-operation quantity, and the
persisted state (quantity and movement log) is unchanged. -/
theorem C2_insufficient_stock_rejected (s : State) (itemId : Nat) (rawType : String)
    (qty : Int) (local_ motivo : String) (item : AlmoxItem)
    (htype : normalizeType rawType ∈ DEBIT_TYPES)
    (hmot : stripStr motivo ≠ "")
    (hqty : 0 < qty)
    (hfind : findById s itemId = some item)
    (hgt : item.qty < qty) :
    applyMovement s itemId rawType qty local_ motivo
      = .error (.insufficientStock item.qty) ∧
    commitOrRollback s (applyMovement s itemId rawType qty local_ motivo)
      = (s, some (.insufficientStock item.qty)) := by
  have hvalid := debit_mem_valid htype
  have hne := debit_ne_entrada htype
  have h1 : applyMovement s itemId rawType qty local_ motivo
      = .error (.insufficientStock item.qty) := by
    simp [applyMovement, hvalid, hne, hmot, hfind, not_le.mpr hqty, not_le.mpr hgt]
  exact ⟨h1, by simp [commitOrRollback, h1]⟩

/-- Witness for C2 at a concrete input: item 0 holds 5, a SAIDA of 6 is
rejected with the available quantity 5 and no state change. -/
theorem C2_insufficient_stock_rejected_witness :
    applyMovement ⟨[⟨0, "a", 5⟩], [], 1, 0⟩ 0 "SAIDA" 6 "" "uso"
      = .error (.insufficientStock 5) ∧
    commitOrRollback ⟨[⟨0, "a", 5⟩], [], 1, 0⟩
      (applyMovement ⟨[⟨0, "a", 5⟩], [], 1, 0⟩ 0 "SAIDA" 6 "" "uso")
      = (⟨[⟨0, "a", 5⟩], [], 1, 0⟩, some (.insufficientStock 5)) :=
  C2_insufficient_stock_rejected _ 0 "SAIDA" 6 "" "uso" ⟨0, "a", 5⟩
    (by decide) (by decide) (by decide) rfl (by decide)

/-- C7: every debit-class movement submitted with an empty (or
whitespace-only) motivo fails with `ValidationError`, and the persisted
state is unchanged.  (When qty is also non-positive the earlier quantity
check fires, with the same `ValidationError` outcome.) -/
theorem C7_empty_reason_rejected (s : State) (itemId : Nat) (rawType : String)
    (qty : Int) (local_ motivo : String)
    (htype : normalizeType rawType ∈ DEBIT_TYPES)
    (hmot : stripStr motivo = "") :
    applyMovement s itemId rawType qty local_ motivo = .error (.validation none) ∧
    commitOrRollback s (applyMovement s itemId rawType qty local_ motivo)
      = (s, some (.validation none)) := by
  have hvalid := debit_mem_valid htype
  have h1 : applyMovement s itemId rawType qty local_ motivo = .error (.validation none) := by
    by_cases hq : qty ≤ 0
    · simp [applyMovement, hvalid, hq]
    · simp [applyMovement, hvalid, hq, htype, hmot]
  exact ⟨h1, by simp [commitOrRollback, h1]⟩

/-- Witness for C7 at a concrete input: a PERDA of 1 against item 0 with a
whitespace-only motivo is rejected and the state is unchanged. -/
theorem C7_empty_reason_rejected_witness :
    applyMovement ⟨[⟨0, "a", 5⟩], [], 1, 0⟩ 0 "PERDA" 1 "" "  "
      = .error (.validation none) ∧
    commitOrRollback ⟨[⟨0, "a", 5⟩], [], 1, 0⟩
      (applyMovement ⟨[⟨0, "a", 5⟩], [], 1, 0⟩ 0 "PERDA" 1 "" "  ")
      = (⟨[⟨0, "a", 5⟩], [], 1, 0⟩, some (.validation none)) :=
  C7_empty_reason_rejected _ 0 "PERDA" 1 "" "  " (by decide) (by decide)

/-- Counterexample to C6 as stated: the claim asserts that every type string
other than ENTRADA/SAIDA/PERDA/DANIFICADO/USO/DANO is rejected with
`ValidationError` and no state change, but the handler uppercases (and
strips) the raw string before validating, so the lowercase wire string
"entrada" — none of the six listed strings — is accepted and commits an
ENTRADA movement. -/
theorem C6_counterexample :
    ("entrada" ∉ ["ENTRADA", "SAIDA", "PERDA", "DANIFICADO", "USO", "DANO"]) ∧
    applyMovement ⟨[⟨0, "a", 5⟩], [], 1, 0⟩ 0 "entrada" 1 "" "" =
      .ok ⟨[⟨0, "a", 6⟩], [⟨0, "ENTRADA", 1, none, some "Entrada de estoque", 0⟩], 1, 1⟩ := by
  exact ⟨by decide, rfl⟩

/-- C6 (amended): the type vocabulary check happens after stripping and
uppercasing the raw string, with an absent/empty type defaulting to SAIDA:
`applyMovement` accepts exactly those raw strings whose stripped, uppercased
form is one of ENTRADA, SAIDA, PERDA, DANIFICADO, USO, DANO; USO normalizes
to SAIDA and DANO to DANIFICADO before validation; every raw string whose
normalized form is not in `VALID_ALMOX_TYPES` is rejected with
`ValidationError` and no state change. -/
theorem C6_amended_type_vocabulary (s : State) (itemId : Nat) (rawType : String)
    (qty : Int) (local_ motivo : String) :
    (normalizeType rawType ∈ VALID_ALMOX_TYPES ↔
        upperStr (stripStr (if rawType = "" then "SAIDA" else rawType)) ∈
          ["ENTRADA", "SAIDA", "PERDA", "DANIFICADO", "USO", "DANO"]) ∧
    (upperStr (stripStr (if rawType = "" then "SAIDA" else rawType)) = "USO" →
        normalizeType rawType = "SAIDA") ∧
    (upperStr (stripStr (if rawType = "" then "SAIDA" else rawType)) = "DANO" →
        normalizeType rawType = "DANIFICADO") ∧
    (normalizeType rawType ∉ VALID_ALMOX_TYPES →
        applyMovement s itemId rawType qty local_ motivo = .error (.validation none) ∧
        commitOrRollback s (applyMovement s itemId rawType qty local_ motivo)
          = (s, some (.validation none))) := by
  have key : ∀ u : String,
      ((if u = "USO" then "SAIDA" else if u = "DANO" then "DANIFICADO" else u)
          ∈ VALID_ALMOX_TYPES
        ↔ u ∈ ["ENTRADA", "SAIDA", "PERDA", "DANIFICADO", "USO", "DANO"]) := by
    intro u
    by_cases h1 : u = "USO"
    · subst h1; decide
    · by_cases h2 : u = "DANO"
      · subst h2; decide
      · simp only [if_neg h1, if_neg h2, VALID_ALMOX_TYPES, List.mem_cons,
          List.not_mem_nil, or_false]
        tauto
  have huso : ∀ u : String, u = "USO" →
      (if u = "USO" then "SAIDA" else if u = "DANO" then "DANIFICADO" else u) = "SAIDA" := by
    intro u h; rw [if_pos h]
  have hdano : ∀ u : String, u = "DANO" →
      (if u = "USO" then "SAIDA" else if u = "DANO" then "DANIFICADO" else u) = "DANIFICADO" := by
    intro u h
    subst h; decide
  refine ⟨key _, huso _, hdano _, ?_⟩
  intro h
  have h1 : applyMovement s itemId rawType qty local_ motivo = .error (.validation none) := by
    simp [applyMovement, h]
  exact ⟨h1, by simp [commitOrRollback, h1]⟩

/-- Witness for the amended C6 at a concrete input: the raw type "FOO"
normalizes to "FOO", is not in the vocabulary, and is rejected with no
state change. -/
theorem C6_amended_type_vocabulary_witness :
    applyMovement ⟨[⟨0, "a", 5⟩], [], 1, 0⟩ 0 "FOO" 1 "" "x"
      = .error (.validation none) ∧
    commitOrRollback ⟨[⟨0, "a", 5⟩], [], 1, 0⟩
      (applyMovement ⟨[⟨0, "a", 5⟩], [], 1, 0⟩ 0 "FOO" 1 "" "x")
      = (⟨[⟨0, "a", 5⟩], [], 1, 0⟩, some (.validation none)) :=
  (C6_amended_type_vocabulary _ 0 "FOO" 1 "" "x").2.2.2 (by decide)

/-- Counterexample to C3 as stated: the claim asserts that any operation
leaving two items whose names differ only by case fails with
`ConflictError`, but the `unique=True` constraint on `almox_items.name` is
case-sensitive (SQLite BINARY collation) and the update handler performs no
case-insensitive check, so renaming item 1 ("b") to "A" while item 0 is
named "a" succeeds and leaves the items named "a" and "A". -/
theorem C3_counterexample :
    adjustItem ⟨[⟨0, "a", 1⟩, ⟨1, "b", 1⟩], [], 2, 0⟩ 1 "A" 0 0 "" =
      .ok ⟨[⟨0, "a", 1⟩, ⟨1, "A", 1⟩], [], 2, 0⟩ ∧
    lowerStr "A" = lowerStr "a" ∧ "A" ≠ "a" := by
  exact ⟨rfl, by decide, by decide⟩

/-- C3 (amended): name uniqueness on rename is case-SENSITIVE.  For an
existing item and otherwise valid update input, `adjustItem` fails with
`ConflictError` exactly when another item already bears the exact new name;
in particular a rename to a name that differs from another item's name only
by letter case passes the uniqueness check and succeeds (see
`C3_counterexample`), while the create path never produces a duplicate
because `registerOrDeposit` deposits into the case-insensitive match
instead of creating (see the C10 theorem). -/
theorem C3_amended_case_sensitive_uniqueness (s : State) (itemId : Nat) (name : String)
    (addQty subQty : Int) (motivo : String) (item : AlmoxItem)
    (hfind : findById s itemId = some item)
    (hname : stripStr name ≠ "")
    (hadd : 0 ≤ addQty) (hsub : 0 ≤ subQty)
    (hnew : 0 ≤ item.qty + addQty - subQty) :
    (nameConflict s item.id (stripStr name) = true →
        adjustItem s itemId name addQty subQty motivo = .error .conflict) ∧
    (nameConflict s item.id (stripStr name) = false →
        succeeds (adjustItem s itemId name addQty subQty motivo) = true) := by
  have hnn : ¬ (addQty < 0 ∨ subQty < 0) := by omega
  have hlt : ¬ (item.qty + addQty - subQty < 0) := by omega
  constructor
  · intro hc
    simp [adjustItem, hfind, hname, hnn, hlt, hc]
  · intro hc
    simp [adjustItem, hfind, hname, hnn, hlt, hc, succeeds]

/-- Witness for the amended C3 at concrete inputs: with items "a" (id 0) and
"b" (id 1), renaming item 1 to "a" conflicts, renaming it to "A" succeeds. -/
theorem C3_amended_case_sensitive_uniqueness_witness :
    adjustItem ⟨[⟨0, "a", 1⟩, ⟨1, "b", 1⟩], [], 2, 0⟩ 1 "a" 0 0 "" = .error .conflict ∧
    succeeds (adjustItem ⟨[⟨0, "a", 1⟩, ⟨1, "b", 1⟩], [], 2, 0⟩ 1 "A" 0 0 "") = true :=
  ⟨(C3_amended_case_sensitive_uniqueness ⟨[⟨0, "a", 1⟩, ⟨1, "b", 1⟩], [], 2, 0⟩
      1 "a" 0 0 "" ⟨1, "b", 1⟩ rfl (by decide) (by decide) (by decide) (by decide)).1
      (by decide),
   (C3_amended_case_sensitive_uniqueness ⟨[⟨0, "a", 1⟩, ⟨1, "b", 1⟩], [], 2, 0⟩
      1 "A" 0 0 "" ⟨1, "b", 1⟩ rfl (by decide) (by decide) (by decide) (by decide)).2
      (by decide)⟩

/-- C4: `registerOrDeposit` rejects an empty (stripped) name or a
non-positive qty with `ValidationError` and no state change; with valid
input it deposits `qty` into the case-insensitive match when one exists,
appending one ENTRADA movement with motivo "Entrada de estoque" (the spec's
"stock entry"), and otherwise inserts a new item holding `qty` with one
ENTRADA movement with motivo "Cadastro inicial" (the spec's "initial
registration"). -/
theorem C4_registerOrDeposit_spec (s : State) (name : String) (qty : Int) :
    ((stripStr name = "" ∨ qty ≤ 0) →
        registerOrDeposit s name qty = .error (.validation none) ∧
        commitOrRollback s (registerOrDeposit s name qty) = (s, some (.validation none))) ∧
    (stripStr name ≠ "" → 0 < qty →
      (∀ ex, findByNameCI s (stripStr name) = some ex →
          registerOrDeposit s name qty =
            .ok { s with
                  items := s.items.map fun it =>
                    if it.id = ex.id then { it with qty := it.qty + qty } else it,
                  movements := s.movements ++
                    [⟨s.nextMovId, "ENTRADA", qty, none, some "Entrada de estoque", ex.id⟩],
                  nextMovId := s.nextMovId + 1 }) ∧
      (findByNameCI s (stripStr name) = none →
          registerOrDeposit s name qty =
            .ok { s with
                  items := s.items ++ [⟨s.nextItemId, stripStr name, qty⟩],
                  movements := s.movements ++
                    [⟨s.nextMovId, "ENTRADA", qty, none, some "Cadastro inicial", s.nextItemId⟩],
                  nextItemId := s.nextItemId + 1, nextMovId := s.nextMovId + 1 })) := by
  refine ⟨?_, ?_⟩
  · intro h
    have h1 : registerOrDeposit s name qty = .error (.validation none) := by
      rcases h with h | h
      · simp [registerOrDeposit, h]
      · by_cases he : stripStr name = "" <;> simp [registerOrDeposit, he, h]
    exact ⟨h1, by simp [commitOrRollback, h1]⟩
  · intro hn hq
    constructor
    · intro ex hex
      simp [registerOrDeposit, hn, not_le.mpr hq, hex]
    · intro hnone
      have hc := nameConflict_eq_false_of_findByNameCI_none (i := s.nextItemId) hnone
      simp [registerOrDeposit, hn, not_le.mpr hq, hnone, hc]

/-- Witness for C4, replaying the spec's own example: "Cabo HDMI" at qty 20
creates an item with one ENTRADA "Cadastro inicial" movement; repeating at
qty 5 with a case-differing name raises the quantity to 25 with a second
ENTRADA "Entrada de estoque" movement; a blank name and a zero qty are both
rejected. -/
theorem C4_registerOrDeposit_spec_witness :
    registerOrDeposit initState "Cabo HDMI" 20 =
      .ok ⟨[⟨0, "Cabo HDMI", 20⟩],
           [⟨0, "ENTRADA", 20, none, some "Cadastro inicial", 0⟩], 1, 1⟩ ∧
    registerOrDeposit
        ⟨[⟨0, "Cabo HDMI", 20⟩],
         [⟨0, "ENTRADA", 20, none, some "Cadastro inicial", 0⟩], 1, 1⟩ "cabo hdmi" 5 =
      .ok ⟨[⟨0, "Cabo HDMI", 25⟩],
           [⟨0, "ENTRADA", 20, none, some "Cadastro inicial", 0⟩,
            ⟨1, "ENTRADA", 5, none, some "Entrada de estoque", 0⟩], 1, 2⟩ ∧
    registerOrDeposit initState "  " 5 = .error (.validation none) ∧
    registerOrDeposit initState "x" 0 = .error (.validation none) :=
  ⟨((C4_registerOrDeposit_spec initState "Cabo HDMI" 20).2 (by decide) (by decide)).2 rfl,
   ((C4_registerOrDeposit_spec
        ⟨[⟨0, "Cabo HDMI", 20⟩],
         [⟨0, "ENTRADA", 20, none, some "Cadastro inicial", 0⟩], 1, 1⟩ "cabo hdmi" 5).2
      (by decide) (by decide)).1 ⟨0, "Cabo HDMI", 20⟩ rfl,
   ((C4_registerOrDeposit_spec initState "  " 5).1 (Or.inl (by decide))).1,
   ((C4_registerOrDeposit_spec initState "x" 0).1 (Or.inr (by decide))).1⟩

/-- C10: depositing under a name that matches an existing item only up to
letter case does not create a second item and does not change the stored
name: the existing item's quantity grows by `qty`, one ENTRADA movement is
appended to that item, the item count is unchanged and every stored name is
exactly as before. -/
theorem C10_deposit_preserves_name (s : State) (name : String) (qty : Int)
    (ex : AlmoxItem)
    (hq : 0 < qty)
    (hn : stripStr name ≠ "")
    (hfind : findByNameCI s (stripStr name) = some ex) :
    registerOrDeposit s name qty =
      .ok { s with
            items := s.items.map fun it =>
              if it.id = ex.id then { it with qty := it.qty + qty } else it,
            movements := s.movements ++
              [⟨s.nextMovId, "ENTRADA", qty, none, some "Entrada de estoque", ex.id⟩],
            nextMovId := s.nextMovId + 1 } ∧
    (s.items.map fun it =>
        if it.id = ex.id then { it with qty := it.qty + qty } else it).length
      = s.items.length ∧
    ((s.items.map fun it =>
        if it.id = ex.id then { it with qty := it.qty + qty } else it).map
        (fun it => it.name))
      = s.items.map (fun it => it.name) := by
  refine ⟨by simp [registerOrDeposit, hn, not_le.mpr hq, hfind], by simp, ?_⟩
  rw [List.map_map]
  refine List.map_congr_left ?_
  intro it _
  by_cases h : it.id = ex.id <;> simp [h]

/-- Witness for C10 at a concrete input: depositing 5 under "CABO hdmi"
onto the item stored as "Cabo HDMI" keeps one item, keeps its name, raises
its quantity to 25 and appends one ENTRADA movement. -/
theorem C10_deposit_preserves_name_witness :
    registerOrDeposit ⟨[⟨0, "Cabo HDMI", 20⟩], [], 1, 0⟩ "CABO hdmi" 5 =
      .ok ⟨[⟨0, "Cabo HDMI", 25⟩],
           [⟨0, "ENTRADA", 5, none, some "Entrada de estoque", 0⟩], 1, 1⟩ ∧
    ([⟨0, "Cabo HDMI", 20⟩] : List AlmoxItem).length = 1 ∧
    (([⟨0, "Cabo HDMI", 25⟩] : List AlmoxItem).map (fun it => it.name))
      = ["Cabo HDMI"] :=
  ⟨(C10_deposit_preserves_name ⟨[⟨0, "Cabo HDMI", 20⟩], [], 1, 0⟩ "CABO hdmi" 5
      ⟨0, "Cabo HDMI", 20⟩ (by decide) (by decide) rfl).1,
   by decide, by decide⟩

/-- C5: for an existing item and `addQty ≥ 0`, `subQty ≥ 0` (and a
non-conflicting non-empty name, since the handler renames in the same
transaction), `adjustItem` applies the net delta `addQty - subQty`: when the
result would be negative it fails with `ValidationError` reporting the
current quantity and persists nothing; otherwise it stores the new quantity
and appends an ENTRADA movement of `addQty` exactly when `addQty > 0` and a
PERDA (LOSS) movement of `subQty` exactly when `subQty > 0`, each carrying
the stripped supplied motivo or the defaults "Ajuste (entrada)" /
"Ajuste (baixa)". -/
theorem C5_adjustItem_spec (s : State) (itemId : Nat) (name : String)
    (addQty subQty : Int) (motivo : String) (item : AlmoxItem)
    (hfind : findById s itemId = some item)
    (hname : stripStr name ≠ "")
    (hadd : 0 ≤ addQty) (hsub : 0 ≤ subQty) :
    (item.qty + addQty - subQty < 0 →
        adjustItem s itemId name addQty subQty motivo
          = .error (.validation (some item.qty)) ∧
        commitOrRollback s (adjustItem s itemId name addQty subQty motivo)
          = (s, some (.validation (some item.qty)))) ∧
    (0 ≤ item.qty + addQty - subQty →
     nameConflict s item.id (stripStr name) = false →
        adjustItem s itemId name addQty subQty motivo =
          .ok { s with
                items := s.items.map fun it =>
                  if it.id = item.id then
                    { it with name := stripStr name, qty := item.qty + addQty - subQty }
                  else it,
                movements := s.movements
                  ++ (if 0 < addQty then
                        [⟨s.nextMovId, "ENTRADA", addQty, none,
                          some (if stripStr motivo = "" then "Ajuste (entrada)"
                                else stripStr motivo), item.id⟩]
                      else [])
                  ++ (if 0 < subQty then
                        [⟨s.nextMovId + (if 0 < addQty then 1 else 0), "PERDA", subQty, none,
                          some (if stripStr motivo = "" then "Ajuste (baixa)"
                                else stripStr motivo), item.id⟩]
                      else []),
                nextMovId := s.nextMovId + (if 0 < addQty then 1 else 0)
                  + (if 0 < subQty then 1 else 0) }) := by
  have hnn : ¬ (addQty < 0 ∨ subQty < 0) := by omega
  refine ⟨?_, ?_⟩
  · intro hneg
    have h1 : adjustItem s itemId name addQty subQty motivo
        = .error (.validation (some item.qty)) := by
      simp [adjustItem, hfind, hname, hnn, hneg]
    exact ⟨h1, by simp [commitOrRollback, h1]⟩
  · intro hpos hc
    have hlt : ¬ (item.qty + addQty - subQty < 0) := by omega
    by_cases hm : stripStr motivo = "" <;>
      by_cases ha : 0 < addQty <;>
        by_cases hb : 0 < subQty <;>
          simp [adjustItem, hfind, hname, hnn, hlt, hc, hm, ha, hb]

/-- Witness for C5, replaying the spec's own example: an item at quantity
10 adjusted with addQty 5, subQty 3 ends at quantity 12 with exactly two
movements appended, ENTRADA 5 and PERDA 3 with the default motivos; and
subtracting 20 instead fails reporting the current quantity 10. -/
theorem C5_adjustItem_spec_witness :
    adjustItem ⟨[⟨0, "x", 10⟩], [], 1, 0⟩ 0 "x" 5 3 "" =
      .ok ⟨[⟨0, "x", 12⟩],
           [⟨0, "ENTRADA", 5, none, some "Ajuste (entrada)", 0⟩,
            ⟨1, "PERDA", 3, none, some "Ajuste (baixa)", 0⟩], 1, 2⟩ ∧
    adjustItem ⟨[⟨0, "x", 10⟩], [], 1, 0⟩ 0 "x" 0 20 ""
      = .error (.validation (some 10)) :=
  ⟨((C5_adjustItem_spec ⟨[⟨0, "x", 10⟩], [], 1, 0⟩ 0 "x" 5 3 "" ⟨0, "x", 10⟩ rfl
      (by decide) (by decide) (by decide)).2 (by decide) (by decide)),
   ((C5_adjustItem_spec ⟨[⟨0, "x", 10⟩], [], 1, 0⟩ 0 "x" 0 20 "" ⟨0, "x", 10⟩ rfl
      (by decide) (by decide) (by decide)).1 (by decide)).1⟩

/-- C8: `deleteItem` on a missing id fails with `NotFoundError` and changes
nothing; on an existing item it removes the item and filters out all of its
movements in the same commit, so no movement row referencing the deleted
item remains and no item with that id remains. -/
theorem C8_deleteItem_spec (s : State) (itemId : Nat) :
    (findById s itemId = none →
        deleteItem s itemId = .error .notFound ∧
        commitOrRollback s (deleteItem s itemId) = (s, some .notFound)) ∧
    (∀ item, findById s itemId = some item →
        deleteItem s itemId =
          .ok { s with items := s.items.filter (fun it => it.id ≠ itemId),
                       movements := s.movements.filter (fun m => m.item_id ≠ itemId) } ∧
        (∀ m ∈ s.movements.filter (fun m => m.item_id ≠ itemId), m.item_id ≠ itemId) ∧
        (∀ it ∈ s.items.filter (fun it => it.id ≠ itemId), it.id ≠ itemId)) := by
  refine ⟨?_, ?_⟩
  · intro h
    have h1 : deleteItem s itemId = .error .notFound := by simp [deleteItem, h]
    exact ⟨h1, by simp [commitOrRollback, h1]⟩
  · intro item h
    refine ⟨by simp [deleteItem, h], ?_, ?_⟩
    · intro m hm
      have := (List.mem_filter.mp hm).2
      simpa using this
    · intro it hit
      have := (List.mem_filter.mp hit).2
      simpa using this

/-- Witness for C8 at concrete inputs: deleting item 0 removes it and both
of its movements while keeping item 1 and its movement; deleting the absent
id 7 fails with `NotFoundError` and no state change. -/
theorem C8_deleteItem_spec_witness :
    deleteItem ⟨[⟨0, "a", 5⟩, ⟨1, "b", 2⟩],
                [⟨0, "ENTRADA", 5, none, none, 0⟩, ⟨1, "ENTRADA", 2, none, none, 1⟩,
                 ⟨2, "SAIDA", 1, none, some "uso", 0⟩], 2, 3⟩ 0 =
      .ok ⟨[⟨1, "b", 2⟩], [⟨1, "ENTRADA", 2, none, none, 1⟩], 2, 3⟩ ∧
    deleteItem ⟨[⟨0, "a", 5⟩], [], 1, 0⟩ 7 = .error .notFound :=
  ⟨((C8_deleteItem_spec ⟨[⟨0, "a", 5⟩, ⟨1, "b", 2⟩],
        [⟨0, "ENTRADA", 5, none, none, 0⟩, ⟨1, "ENTRADA", 2, none, none, 1⟩,
         ⟨2, "SAIDA", 1, none, some "uso", 0⟩], 2, 3⟩ 0).2 ⟨0, "a", 5⟩ rfl).1,
   ((C8_deleteItem_spec ⟨[⟨0, "a", 5⟩], [], 1, 0⟩ 7).1 rfl).1⟩

/-- C1: for every state satisfying the ledger invariant (in particular the
empty initial database) and every sequence of requests built from
`registerOrDeposit`, `applyMovement` and `adjustItem` — failed requests roll
back and successful ones commit — every stored item's quantity equals the
signed sum of its movement log: ENTRADA movements add their qty, all other
types subtract it.  The item's creation deposit is itself recorded as an
ENTRADA movement, so "initial quantity plus ENTRY sums minus USE/LOSS/DAMAGE
sums" is exactly this signed sum. -/
theorem C1_quantity_equals_signed_sum (s : State) (hs : Inv s) (ops : List Op) :
    ∀ it ∈ (replay s ops).items, it.qty = signedSum it.id (replay s ops).movements :=
  (Inv_replay hs ops).1

/-- Witness for C1 at a concrete replay: from the empty database, register
"Cabo" at 10, debit 3 via the legacy USO type, then adjust with addQty 5 and
subQty 3; the stored quantity 9 equals the signed sum 10 - 3 + 5 - 3 of the
four logged movements. -/
theorem C1_quantity_equals_signed_sum_witness :
    AlmoxItem.qty ⟨0, "Cabo", 9⟩
      = signedSum 0 (replay initState
          [.registerOrDeposit "Cabo" 10, .applyMovement 0 "USO" 3 "" "uso",
           .adjustItem 0 "Cabo" 5 3 ""]).movements :=
  C1_quantity_equals_signed_sum initState
    (by refine ⟨?_, ?_, ?_⟩ <;> intro x hx <;> simp [initState] at hx)
    [.registerOrDeposit "Cabo" 10, .applyMovement 0 "USO" 3 "" "uso",
     .adjustItem 0 "Cabo" 5 3 ""]
    ⟨0, "Cabo", 9⟩ (by decide)

/-- C9: every ledger operation is atomic.  (1) Whenever a request fails
with any error, the persisted state is exactly the pre-request state — in
the embedding a handler only returns `.ok` at its single commit point, and
`commitOrRollback` keeps the old state on every error path, mirroring the
rollback (explicit or at teardown) in the routes.  (2) A successful
`applyMovement` persists the quantity update and the appended movement
together: the new state is the old one with exactly one movement appended
and exactly the matched item's quantity rewritten.  (3) When `adjustItem`
fails because the net result would be negative, the persisted state is
unchanged — no rename, no quantity change, no movement record. -/
theorem C9_atomicity :
    (∀ (s : State) (op : Op) (e : AlmoxError),
        (step s op).2 = some e → (step s op).1 = s) ∧
    (∀ (s : State) (itemId : Nat) (rawType : String) (qty : Int)
        (local_ motivo : String) (s' : State),
        applyMovement s itemId rawType qty local_ motivo = .ok s' →
        ∃ item mv, findById s itemId = some item ∧ mv.item_id = item.id ∧
          s'.movements = s.movements ++ [mv] ∧
          s'.items = s.items.map fun it =>
            if it.id = item.id then
              { it with qty := if normalizeType rawType = "ENTRADA"
                               then item.qty + qty else item.qty - qty }
            else it) ∧
    (∀ (s : State) (itemId : Nat) (name : String) (addQty subQty : Int) (motivo : String)
        (item : AlmoxItem),
        findById s itemId = some item → stripStr name ≠ "" →
        0 ≤ addQty → 0 ≤ subQty → item.qty + addQty - subQty < 0 →
        step s (.adjustItem itemId name addQty subQty motivo)
          = (s, some (.validation (some item.qty)))) := by
  refine ⟨?_, ?_, ?_⟩
  · intro s op e h
    unfold step commitOrRollback at h ⊢
    cases hd : dispatch s op with
    | ok s'' => rw [hd] at h; simp at h
    | error e' => rfl
  · intro s itemId rawType qty local_ motivo s' h
    simp only [applyMovement] at h
    split at h
    · simp at h
    split at h
    · simp at h
    split at h
    · simp at h
    split at h
    · simp at h
    next item heq =>
      split at h
      · simp only [Except.ok.injEq] at h
        subst h
        exact ⟨item, _, heq, rfl, rfl, rfl⟩
      · simp at h
  · intro s itemId name addQty subQty motivo item hfind hname hadd hsub hneg
    have hnn : ¬ (addQty < 0 ∨ subQty < 0) := by omega
    have h1 : adjustItem s itemId name addQty subQty motivo
        = .error (.validation (some item.qty)) := by
      simp [adjustItem, hfind, hname, hnn, hneg]
    simp [step, dispatch, commitOrRollback, h1]

/-- Witness for C9 at concrete inputs: a failing adjustItem (net negative)
leaves the state untouched, via both the generic rollback fact and the
adjustItem-specific one. -/
theorem C9_atomicity_witness :
    (step ⟨[⟨0, "x", 10⟩], [], 1, 0⟩ (.adjustItem 0 "y" 0 20 "")).1
      = ⟨[⟨0, "x", 10⟩], [], 1, 0⟩ ∧
    step ⟨[⟨0, "x", 10⟩], [], 1, 0⟩ (.adjustItem 0 "y" 0 20 "")
      = (⟨[⟨0, "x", 10⟩], [], 1, 0⟩, some (.validation (some 10))) :=
  ⟨C9_atomicity.1 ⟨[⟨0, "x", 10⟩], [], 1, 0⟩ (.adjustItem 0 "y" 0 20 "")
      (.validation (some 10)) rfl,
   C9_atomicity.2.2 ⟨[⟨0, "x", 10⟩], [], 1, 0⟩ 0 "y" 0 20 "" ⟨0, "x", 10⟩ rfl
      (by decide) (by decide) (by decide) (by decide)⟩

end Inventario
